import Mathlib

/-!
Verification development for the query-interpretation pipeline of the
new-car price lookup application (`src/main.py`).

The Python source is shallowly embedded: pandas column operations become
list operations over an explicit record type, Python strings become
`String` manipulated through executable character-list functions (the
built-in `String.toLower`/`trim`/... are avoided because they do not
reduce in the kernel), and the pandas `str.contains` regex test is
embedded by a matcher for the fragment of Python regular expressions
actually exercised by the data: patterns made of literal characters plus
the `.` any-character wildcard.  All text is ASCII in this model, which
matches the dataset vocabulary (brands, types, years, transmissions).
-/

/-! ## Character-list text primitives (Python string operations) -/

/-- Python `str.lower` for ASCII text: lowercase every character. -/
def lowerL (l : List Char) : List Char := l.map Char.toLower

/-- Python `str.lower` on a `String`. -/
def lowerS (s : String) : String := String.mk (lowerL s.data)

/-- Python `str.startswith` on character lists: the first list is a
    leading segment of the second. -/
def startsWithL : List Char → List Char → Bool
  | [], _ => true
  | _ :: _, [] => false
  | a :: as, b :: bs => a = b && startsWithL as bs

/-- The Python `in` operator on strings: `isSub n h` holds when `n`
    occurs contiguously inside `h` (the empty list occurs everywhere). -/
def isSub (n : List Char) : List Char → Bool
  | [] => n.isEmpty
  | c :: cs => startsWithL n (c :: cs) || isSub n cs

/-- `isSub` on `String`s: Python `needle in hay`. -/
def substrS (needle hay : String) : Bool := isSub needle.data hay.data

/-- Python `str.strip`: drop leading and trailing whitespace. -/
def trimL (l : List Char) : List Char :=
  ((l.dropWhile Char.isWhitespace).reverse.dropWhile Char.isWhitespace).reverse

/-- Python `str.strip` on a `String`. -/
def trimS (s : String) : String := String.mk (trimL s.data)

/-- Helper for `splitWs`: accumulates the current word (reversed). -/
def splitWsAux : List Char → List Char → List String
  | [], acc => if acc.isEmpty then [] else [String.mk acc.reverse]
  | c :: cs, acc =>
    if c.isWhitespace then
      if acc.isEmpty then splitWsAux cs [] else String.mk acc.reverse :: splitWsAux cs []
    else splitWsAux cs (c :: acc)

/-- Python `str.split()` with no argument: split on whitespace runs,
    discarding empty words. -/
def splitWs (s : String) : List String := splitWsAux s.data []

/-- Python truthiness of an optional string (`None` and `""` are falsy). -/
def truthy : Option String → Bool
  | none => false
  | some s => !s.data.isEmpty

/-- First-occurrence deduplication, the order kept by pandas
    `Series.unique()`.  `seen` holds the values already emitted. -/
def dedupAux {α : Type} [DecidableEq α] : List α → List α → List α
  | _, [] => []
  | seen, x :: xs =>
    if x ∈ seen then dedupAux seen xs else x :: dedupAux (x :: seen) xs

/-- pandas `Series.unique()`: distinct values in first-appearance order. -/
def dedupFirst {α : Type} [DecidableEq α] (l : List α) : List α := dedupAux [] l

/-! ## The modelled fragment of Python regular expressions

pandas `Series.str.contains(pat)` interprets `pat` as a regular
expression (`regex=True` is the default) and tests `re.search`.  The
patterns fed to it by this program are dataset type strings and
user-extracted types: words, digits, spaces and the dot.  We embed
`re.search` for the fragment in which every character is a literal
except `.`, which matches any character other than a newline. -/

/-- One position of `re.search`: the pattern matches a leading segment
    of the text, `.` matching any non-newline character. -/
def patMatchAt : List Char → List Char → Bool
  | [], _ => true
  | _ :: _, [] => false
  | p :: ps, c :: cs => (p = c || (p = '.' && c ≠ '\n')) && patMatchAt ps cs

/-- `re.search` over character lists: the pattern matches at some
    position of the text. -/
def reSearchL (p : List Char) : List Char → Bool
  | [] => patMatchAt p []
  | c :: cs => patMatchAt p (c :: cs) || reSearchL p cs

/-- `re.search pat s` for the modelled pattern fragment, as used by
    `Series.str.contains`. -/
def reSearch (pat s : String) : Bool := reSearchL pat.data s.data

/-- The pattern characters that are regex metacharacters beyond the
    modelled `.` wildcard; patterns avoiding them (every character
    literal or `.`) are valid Python regexes and lie in the modelled
    fragment. -/
def patOk (pat : String) : Bool :=
  pat.data.all fun c =>
    c ∉ (['*', '+', '?', '(', ')', '[', ']', '{', '}', '\\', '|', '^', '$'] : List Char)

/-! ## Leftmost year match: `re.search r"(20\d{2})", text` -/

/-- Leftmost occurrence of the pattern `20\d{2}` in the text, as matched
    by `re.search` in `fallback_extract` (line 73 of `src/main.py`). -/
def findYear : List Char → Option String
  | a :: b :: c :: d :: rest =>
    if a = '2' ∧ b = '0' ∧ c.isDigit ∧ d.isDigit then some (String.mk [a, b, c, d])
    else findYear (b :: c :: d :: rest)
  | _ => none

/-! ## The dataset -/

/-- A dataset row (`summary_OTR_with_OTR_VM.xlsx`) with the columns the
    pipeline reads.  Monetary amounts are smallest-unit integers
    (nullable), as the spec's data model states. -/
structure Record where
  merk : String
  tipe_match : String
  tahun : Nat
  transmisi : String
  otr_min : Option Int
  otr_avg : Option Int
  otr_vm : Option Int
deriving DecidableEq, Repr

/-- `df["tahun"].astype(str)` for one row: the year rendered in decimal.
    Rendering uses the fuel-based digit writer below. -/
def digitChar (n : Nat) : Char :=
  match n with
  | 0 => '0' | 1 => '1' | 2 => '2' | 3 => '3' | 4 => '4'
  | 5 => '5' | 6 => '6' | 7 => '7' | 8 => '8' | 9 => '9'
  | _ => '0'

/-- Decimal digits of a natural number, most significant first
    (fuel-based so that it is structural and kernel-evaluable). -/
def natDigitsAux : Nat → Nat → List Char → List Char
  | 0, _, acc => acc
  | fuel + 1, n, acc =>
    if n < 10 then digitChar n :: acc
    else natDigitsAux fuel (n / 10) (digitChar (n % 10) :: acc)

/-- Decimal rendering of a natural number. -/
def natDigits (n : Nat) : List Char := natDigitsAux (n + 1) n []

/-- `str(year)` / `astype(str)` on the year column. -/
def yearStr (r : Record) : String := String.mk (natDigits r.tahun)

/-! ## Rule-based fallback extractor (`fallback_extract`, lines 66-96) -/

/-- `fallback_extract(input_text, df)` from `src/main.py`:
    year = leftmost `20\d{2}` in the lowercased text; transmission from
    the literal token tests; brand = first distinct lowercased `merk`
    value occurring in the text; type = first distinct lowercased
    `tipe_match` value containing **any** whitespace-separated word of
    the text.  Returns `(brand, tipe, tahun, transmisi)`. -/
def fallback_extract (input_text : String) (df : List Record) :
    Option String × Option String × Option String × Option String :=
  let text := lowerS input_text
  let tahun := findYear text.data
  let transmisi : Option String :=
    if substrS "at" text || substrS "auto" text || substrS "matic" text then some "AT"
    else if substrS "mt" text || substrS "manual" text then some "MT"
    else none
  let brand := (dedupFirst (df.map fun r => lowerS r.merk)).find? fun b => substrS b text
  let tipe := (dedupFirst (df.map fun r => lowerS r.tipe_match)).find? fun t =>
    (splitWs text).any fun word => substrS word t
  (brand, tipe, tahun, transmisi)

/-- Modelled from the spec (section 4.2 step 4): the two-pass type
    derivation the spec prescribes for the fallback extractor, which the
    spec notes is missing from the present source (the source carries
    the superseded single-pass variant).  Pass 1 keeps only candidate
    types containing **every** alphabetic-only whitespace-separated word
    of the input; pass 2 (reached only when pass 1 selects nothing)
    accepts **any** such word; in either pass, a brand that was not
    already set is derived from the matching record's brand field. -/
def fallbackTwoPass (input_text : String) (df : List Record) :
    Option String × Option String × Option String × Option String :=
  let text := lowerS input_text
  let tahun := findYear text.data
  let transmisi : Option String :=
    if substrS "at" text || substrS "auto" text || substrS "matic" text then some "AT"
    else if substrS "mt" text || substrS "manual" text then some "MT"
    else none
  let brand0 := (dedupFirst (df.map fun r => lowerS r.merk)).find? fun b => substrS b text
  let words := (splitWs text).filter fun w => w.data.all Char.isAlpha
  let cands := dedupFirst (df.map fun r => lowerS r.tipe_match)
  let tipe :=
    match cands.find? (fun t => words.all fun w => substrS w t) with
    | some t => some t
    | none => cands.find? fun t => words.any fun w => substrS w t
  let brand :=
    match brand0, tipe with
    | some b, _ => some b
    | none, some t => (df.find? fun r => lowerS r.tipe_match = t).map (·.merk)
    | none, none => none
  (brand, tipe, tahun, transmisi)

/-! ## Brand correction pass (lines 133-139) -/

/-- The brand-correction block of `src/main.py` (lines 133-139): when a
    type was identified, the rows whose `tipe_match` matches it are
    looked up with `str.contains(tipe.lower(), na=False)` (a regex
    containment test); if any row matches, and the current brand is
    falsy or differs case-insensitively from the first matching row's
    brand, the brand becomes that row's brand lowercased. -/
def brand_correct (df : List Record) (brand tipe : Option String) : Option String :=
  if truthy tipe then
    let t := lowerS (tipe.getD "")
    let df_tipe := df.filter fun r => reSearch t (lowerS r.tipe_match)
    match df_tipe with
    | [] => brand
    | r :: _ =>
      if !truthy brand || lowerS (brand.getD "") ≠ lowerS r.merk then some (lowerS r.merk)
      else brand
  else brand

/-! ## Search filters (lines 158-169) -/

/-- The exact-stage filter `df_filtered` (lines 158-162), applied to the
    already-normalized (stripped, lowercased) query fields: brand
    equality on the lowercased `merk` column, regex containment of the
    type in the lowercased `tipe_match` column, and textual equality on
    the year column rendered as strings. -/
def df_filtered (df : List Record) (b t y : String) : List Record :=
  df.filter fun r => lowerS r.merk = b && reSearch t (lowerS r.tipe_match) && yearStr r = y

/-- The relaxed filter `df_alt` (lines 166-169): the exact-stage filter
    with the year constraint dropped. -/
def df_alt (df : List Record) (b t : String) : List Record :=
  df.filter fun r => lowerS r.merk = b && reSearch t (lowerS r.tipe_match)

/-! ## Rupiah formatter (`format_rupiah`, lines 99-103) -/

/-- Rounding to the nearest integer with ties to even, applied to the
    fraction `n / d` (for `d > 0`): the rounding rule of Python's
    `round` and of the `:,.0f` format specification. -/
def roundHalfEvenFrac (n d : Int) : Int :=
  let q := n.ediv d
  let r := n.emod d
  if 2 * r < d then q
  else if d < 2 * r then q + 1
  else if q.emod 2 = 0 then q else q + 1

/-- Insert `sep` after every third character; fed the reversed digit
    list, it produces thousands grouping from the right. -/
def group3 (sep : Char) : List Char → List Char
  | a :: b :: c :: d :: rest => a :: b :: c :: sep :: group3 sep (d :: rest)
  | l => l

/-- Python `f"{x:,}"` applied to an integer: decimal digits with `,` as
    the thousands separator, a leading `-` for negatives. -/
def commaGrouped (m : Int) : List Char :=
  (if m < 0 then ['-'] else []) ++ (group3 ',' (natDigits m.natAbs).reverse).reverse

/-- Thousands grouping with `.` as the separator (the Indonesian
    convention the spec describes). -/
def dotGrouped (m : Int) : String :=
  String.mk ((if m < 0 then ['-'] else []) ++ (group3 '.' (natDigits m.natAbs).reverse).reverse)

/-- The character substitution performed by `.replace(",", ".")`: with a
    one-character pattern, Python's `str.replace` is a per-character
    substitution. -/
def swapComma (c : Char) : Char := if c = ',' then '.' else c

/-- `format_rupiah(value)` (lines 99-103) on a nullable smallest-unit
    amount: `-` for null or zero, otherwise the f-string
    `f"Rp {value/1_000_000:,.0f} juta"` with every `,` then replaced by
    `.`.  The `:,.0f` conversion is division by 1,000,000 followed by
    round-half-to-even and comma grouping. -/
def format_rupiah (value : Option Int) : String :=
  match value with
  | none => "-"
  | some v =>
    if v = 0 then "-"
    else
      String.mk (("Rp ".data ++ commaGrouped (roundHalfEvenFrac v 1000000) ++ " juta".data).map
        swapComma)

/-- `format_rupiah` applied to the derived column
    `max_calc = otr_avg * 1.10` (line 198), computed exactly as the
    fraction `avg * 11 / 10` (null propagates, zero stays zero; the
    binary-float deviation of `1.10` from `11/10` could only show at
    exact half-million-juta ties, which no claim touches). -/
def format_rupiah_frac11 (value : Option Int) : String :=
  match value with
  | none => "-"
  | some v =>
    if v = 0 then "-"
    else
      String.mk (("Rp ".data ++ commaGrouped (roundHalfEvenFrac (v * 11) 10000000) ++ " juta".data).map
        swapComma)

/-! ## Result-table formatting and the search pipeline (lines 149-219) -/

/-- Python `str.title`: uppercase a letter that does not follow a
    letter, lowercase a letter that does. -/
def titleAux : Bool → List Char → List Char
  | _, [] => []
  | prevAlpha, c :: cs =>
    (if c.isAlpha then (if prevAlpha then c.toLower else c.toUpper) else c) ::
      titleAux c.isAlpha cs

/-- Python `str.title` on a `String`. -/
def titleS (s : String) : String := String.mk (titleAux false s.data)

/-- One display row of `result_df` (lines 186-207): the transmission
    label (null for rows whose transmission is neither `automatic` nor
    `manual`) and the four formatted monetary columns. -/
structure DisplayRow where
  tipe_label : Option String
  min : String
  average : String
  max : String
  harga_baru : String
deriving DecidableEq, Repr

/-- Build the display row of one matching record (lines 186-204). -/
def mkDisplayRow (r : Record) : DisplayRow :=
  { tipe_label :=
      if lowerS r.transmisi = "automatic" then some (titleS r.tipe_match ++ " A/T")
      else if lowerS r.transmisi = "manual" then some (titleS r.tipe_match ++ " M/T")
      else none
    min := format_rupiah r.otr_min
    average := format_rupiah r.otr_avg
    max := format_rupiah_frac11 r.otr_avg
    harga_baru := format_rupiah r.otr_vm }

/-- One record of `search_log.csv` as appended by `log_search`
    (lines 23-38); the wall-clock timestamp is threaded in as a
    parameter. -/
structure LogEntry where
  timestamp : String
  user_input : String
  brand : String
  tipe : String
  tahun : String
  transmisi : Option String
  hasil_ditemukan : Nat
deriving DecidableEq, Repr

/-- The outcome of one query, the spec's `SearchOutcome`: only the
    `found` variant carries a result table. -/
inductive Outcome where
  | incomplete
  | yearsAvail (available_years : List String)
  | notFound
  | found (rows : List DisplayRow)
deriving DecidableEq, Repr

/-- Lexicographic comparison of character lists by code point, the
    order Python's `sorted` uses on strings. -/
def lexLe : List Char → List Char → Bool
  | [], _ => true
  | _ :: _, [] => false
  | a :: as, b :: bs => if a = b then lexLe as bs else decide (a < b)

/-- Python `sorted` on a list of strings (ascending, lexicographic). -/
def sortStrings (l : List String) : List String :=
  List.insertionSort (fun a b => lexLe a.data b.data = true) l

/-- The post-extraction part of the button handler (lines 149-219):
    completeness validation, normalization, exact-stage filtering, the
    year-relaxation path, result-table formatting, and the log records
    appended along the way.  Returns the outcome paired with the list of
    appended log entries. -/
def run_search (ts input : String) (brand tipe tahun transmisi : Option String)
    (df : List Record) : Outcome × List LogEntry :=
  if !truthy brand || !truthy tipe || !truthy tahun then (.incomplete, [])
  else
    let b := lowerS (trimS (brand.getD ""))
    let t := lowerS (trimS (tipe.getD ""))
    let y := trimS (tahun.getD "")
    let dfF := df_filtered df b t y
    if dfF.isEmpty then
      let dfA := df_alt df b t
      if !dfA.isEmpty then
        (.yearsAvail (sortStrings (dedupFirst (dfA.map yearStr))),
         [⟨ts, input, b, t, y, transmisi, 0⟩])
      else (.notFound, [⟨ts, input, b, t, y, transmisi, 0⟩])
    else
      let dfT :=
        if transmisi = some "AT" then dfF.filter fun r => lowerS r.transmisi = "automatic"
        else if transmisi = some "MT" then dfF.filter fun r => lowerS r.transmisi = "manual"
        else dfF
      let rows := dedupFirst (dfT.map mkDisplayRow)
      (.found rows, [⟨ts, input, b, t, y, transmisi, rows.length⟩])

/-! ## Model-assisted extractor (`extract_params`, lines 41-63)

The outbound completion call is the one piece outside the program: its
behaviour is a parameter, either a service failure (network error,
timeout, any exception from the client) or a response text.  Everything
after it — parsing the response as a Python dict literal and reading
the four keys — is embedded below; the enclosing `try/except` makes the
function total with the all-`None` tuple on every failure path, which the
embedding renders by returning a plain tuple rather than an `Except`. -/

/-- What the external completion service did on one invocation. -/
inductive SvcResult where
  | failure
  | response (content : String)
deriving DecidableEq, Repr

/-- Drop leading whitespace, as `ast.literal_eval` tolerates around
    tokens. -/
def skipBlank (l : List Char) : List Char := l.dropWhile Char.isWhitespace

/-- Scan the inside of a single-quoted Python string literal up to the
    closing quote (the modelled fragment has no escape sequences, which
    matches the instructed response format). -/
def quotedAux : List Char → List Char → Option (String × List Char)
  | [], _ => none
  | '\'' :: rest, acc => some (String.mk acc.reverse, rest)
  | c :: rest, acc => quotedAux rest (c :: acc)

/-- Parse a single-quoted Python string literal. -/
def parseQuoted : List Char → Option (String × List Char)
  | '\'' :: rest => quotedAux rest []
  | _ => none

/-- Parse one Python value of the modelled literal fragment: a
    single-quoted string, an optionally negated integer literal, or
    `None`.  The value is kept as the text `str(value)` would produce
    (`None` as a missing value), which is how the pipeline consumes it. -/
def parseVal (l : List Char) : Option (Option String × List Char) :=
  match skipBlank l with
  | '\'' :: rest => (quotedAux rest []).map fun p => (some p.1, p.2)
  | '-' :: rest =>
    match rest.span Char.isDigit with
    | ([], _) => none
    | (ds, r) => some (some (String.mk ('-' :: ds)), r)
  | 'N' :: 'o' :: 'n' :: 'e' :: rest => some (none, rest)
  | l' =>
    match l'.span Char.isDigit with
    | ([], _) => none
    | (ds, r) => some (some (String.mk ds), r)

/-- Parse the `'key': value` entries of a dict literal after its opening
    brace, fuel-bounded; returns the entries in order with what follows
    the closing brace. -/
def parseEntries : Nat → List Char → List (String × Option String) →
    Option (List (String × Option String) × List Char)
  | 0, _, _ => none
  | fuel + 1, l, acc =>
    match parseQuoted (skipBlank l) with
    | none => none
    | some (k, r1) =>
      match skipBlank r1 with
      | ':' :: r2 =>
        match parseVal r2 with
        | none => none
        | some (v, r3) =>
          match skipBlank r3 with
          | ',' :: r4 => parseEntries fuel r4 ((k, v) :: acc)
          | '}' :: r4 => some (((k, v) :: acc).reverse, r4)
          | _ => none
      | _ => none

/-- `ast.literal_eval` restricted to the dict-literal fragment the
    system prompt requests (single-quoted string keys; string, integer
    or `None` values): any other input — including valid Python
    literals that are not such dicts, on which the subsequent `d.get`
    would raise — yields `none`, the parse-failure case. -/
def parsePyDict (s : String) : Option (List (String × Option String)) :=
  match skipBlank s.data with
  | '{' :: r =>
    match skipBlank r with
    | '}' :: r2 => if (skipBlank r2).isEmpty then some [] else none
    | _ =>
      match parseEntries (s.data.length + 1) r [] with
      | some (d, rest) => if (skipBlank rest).isEmpty then some d else none
      | none => none
  | _ => none

/-- Python `dict.get`: the value at the key, `None` when the key is
    absent; a duplicated key keeps its last occurrence, as in a Python
    dict literal. -/
def dictGet (d : List (String × Option String)) (k : String) : Option String :=
  match d.reverse.find? fun p => p.1 = k with
  | some p => p.2
  | none => none

/-- `extract_params(input_text)` (lines 41-63) as a function of the
    service behaviour: the `try/except Exception` wrapper returns the
    all-`None` tuple on a service failure or an unparseable response,
    and otherwise the `brand`, `tipe`, `tahun`, `transmisi` entries of
    the parsed dict. -/
def extract_params (svc : SvcResult) :
    Option String × Option String × Option String × Option String :=
  match svc with
  | .failure => (none, none, none, none)
  | .response s =>
    match parsePyDict s with
    | none => (none, none, none, none)
    | some d => (dictGet d "brand", dictGet d "tipe", dictGet d "tahun", dictGet d "transmisi")

/-! ## Extraction coordinator (lines 126-131) -/

/-- The dispatch of lines 126-131: the model-assisted result is kept
    only when its brand, type and year are all truthy; otherwise the
    whole 4-tuple — transmission included — is replaced by
    `fallback_extract`'s result. -/
def extract_dispatch
    (model : Option String × Option String × Option String × Option String)
    (input : String) (df : List Record) :
    Option String × Option String × Option String × Option String :=
  if !truthy model.1 || !truthy model.2.1 || !truthy model.2.2.1 then
    fallback_extract input df
  else model

/-! ## Nullable `tipe_match` column (claim C10)

The spreadsheet column `tipe_match` may in principle carry nulls.  In
pandas, `str.lower().str.contains(pat)` maps a null entry to null, null
propagates through `&`, and masking a frame with a null-containing
boolean mask raises `ValueError`; `str.contains(pat, na=False)` instead
fills nulls with `False`.  The filters of lines 158-169 use the former,
the brand-correction lookup of line 135 the latter.  `Row` carries the
nullable column and the two behaviours are embedded as an
`Except`-valued and a total filter. -/

/-- A dataset row with a nullable `tipe_match` column. -/
structure Row where
  merk : String
  tipe_match : Option String
  tahun : Nat
deriving DecidableEq, Repr

/-- The exact-stage filter of lines 158-162 over nullable rows: any null
    `tipe_match` leaves a null in the boolean mask and the masking step
    raises, modelled as `Except.error`. -/
def df_filteredE (df : List Row) (b t y : String) : Except Unit (List Row) :=
  if df.any fun r => r.tipe_match.isNone then .error ()
  else .ok (df.filter fun r =>
    lowerS r.merk = b && reSearch t (lowerS (r.tipe_match.getD "")) &&
      String.mk (natDigits r.tahun) = y)

/-- The relaxed filter of lines 166-169 over nullable rows, with the
    same null behaviour. -/
def df_altE (df : List Row) (b t : String) : Except Unit (List Row) :=
  if df.any fun r => r.tipe_match.isNone then .error ()
  else .ok (df.filter fun r =>
    lowerS r.merk = b && reSearch t (lowerS (r.tipe_match.getD "")))

/-- The brand-correction lookup of line 135 over nullable rows:
    `str.contains(tipe, na=False)` treats a null `tipe_match` as a
    non-match, so the lookup is total. -/
def df_tipeLookup (df : List Row) (t : String) : List Row :=
  df.filter fun r =>
    match r.tipe_match with
    | none => false
    | some tm => reSearch t (lowerS tm)

/-! ## Concrete datasets for the instance theorems -/

/-- The spec's scenario record: a Toyota Avanza 1.3 E row for 2020. -/
def recAvanza : Record :=
  ⟨"TOYOTA", "Avanza 1.3 E", 2020, "automatic", some 200000000, some 220000000, some 230000000⟩

/-- The spec's scenario dataset: one Toyota Avanza 1.3 E row for 2020. -/
def dfScenario : List Record := [recAvanza]

/-- A two-row dataset on which the single-pass and two-pass fallback
    type derivations disagree for the input `"avanza e"`. -/
def dfTwoTypes : List Record :=
  [⟨"DAIHATSU", "Terios", 2024, "automatic", some 250000000, some 260000000, some 270000000⟩,
   recAvanza]

/-- A row whose `tipe_match` differs from `"Avanza 1.3 E"` exactly at
    the character under the regex dot. -/
def recDotX : Record :=
  ⟨"TOYOTA", "Avanza 1x3 E", 2020, "automatic", some 200000000, some 220000000, some 230000000⟩

/-- The dataset with only `recDotX`. -/
def dfDotX : List Record := [recDotX]

/-- A dataset in which the first record matching the type `"1.3"` as a
    regex is not the first record containing it as a substring. -/
def dfBrandMix : List Record :=
  [⟨"HONDA", "Brio 1x3 X", 2021, "manual", some 150000000, some 160000000, some 170000000⟩,
   recAvanza]

/-- A nullable-column dataset with one null `tipe_match`. -/
def dfRowNull : List Row := [⟨"TOYOTA", some "Avanza", 2020⟩, ⟨"HONDA", none, 2021⟩]

/-- A nullable-column dataset with no null `tipe_match`. -/
def dfRowOk : List Row := [⟨"TOYOTA", some "Avanza", 2020⟩, ⟨"HONDA", some "Brio", 2021⟩]

/-! ## Helper lemmas -/

/-- A leading-segment occurrence is matched at that position by the
    literal-plus-dot pattern reading of the same characters. -/
theorem patMatchAt_of_startsWith : ∀ (n l : List Char), startsWithL n l = true → patMatchAt n l = true
  | [], _, _ => rfl
  | _ :: _, [], h => by simp [startsWithL] at h
  | a :: as, b :: bs, h => by
    simp only [startsWithL, Bool.and_eq_true, decide_eq_true_eq] at h
    simp only [patMatchAt, Bool.and_eq_true, Bool.or_eq_true, decide_eq_true_eq]
    exact ⟨Or.inl h.1, patMatchAt_of_startsWith as bs h.2⟩

/-- A match at the head position is a search hit. -/
theorem reSearchL_of_patMatchAt (p : List Char) :
    ∀ l : List Char, patMatchAt p l = true → reSearchL p l = true
  | [], h => h
  | _ :: _, h => by simp only [reSearchL, Bool.or_eq_true]; exact Or.inl h

/-- A literal substring occurrence is found by the regex search: in the
    modelled pattern fragment every character matches itself. -/
theorem reSearchL_of_isSub (n : List Char) : ∀ h : List Char, isSub n h = true → reSearchL n h = true
  | [], hh => by
    simp only [isSub, List.isEmpty_iff] at hh
    subst hh; rfl
  | c :: cs, hh => by
    simp only [isSub, Bool.or_eq_true] at hh
    rcases hh with h1 | h2
    · exact reSearchL_of_patMatchAt n (c :: cs) (patMatchAt_of_startsWith n (c :: cs) h1)
    · simp only [reSearchL, Bool.or_eq_true]
      exact Or.inr (reSearchL_of_isSub n cs h2)

/-- `substrS` implies `reSearch` on `String`s. -/
theorem reSearch_of_substrS (p s : String) (h : substrS p s = true) : reSearch p s = true :=
  reSearchL_of_isSub p.data s.data h

/-- Membership in `dedupAux`: an element is kept iff it occurs in the
    input and was not seen before. -/
theorem mem_dedupAux {α : Type} [DecidableEq α] (x : α) :
    ∀ (l seen : List α), x ∈ dedupAux seen l ↔ x ∈ l ∧ x ∉ seen
  | [], seen => by simp [dedupAux]
  | y :: ys, seen => by
    by_cases hy : y ∈ seen
    · rw [show dedupAux seen (y :: ys) = dedupAux seen ys from by simp [dedupAux, hy],
        mem_dedupAux x ys seen]
      constructor
      · rintro ⟨h1, h2⟩; exact ⟨List.mem_cons_of_mem y h1, h2⟩
      · rintro ⟨h1, h2⟩
        rcases List.mem_cons.mp h1 with rfl | h1
        · exact absurd hy h2
        · exact ⟨h1, h2⟩
    · rw [show dedupAux seen (y :: ys) = y :: dedupAux (y :: seen) ys from by simp [dedupAux, hy]]
      simp only [List.mem_cons, mem_dedupAux x ys (y :: seen)]
      constructor
      · rintro (rfl | ⟨h1, h2⟩)
        · exact ⟨Or.inl rfl, hy⟩
        · simp only [List.mem_cons, not_or] at h2
          exact ⟨Or.inr h1, h2.2⟩
      · rintro ⟨h1 | h1, h2⟩
        · exact Or.inl h1
        · by_cases hxy : x = y
          · exact Or.inl hxy
          · exact Or.inr ⟨h1, by simp [List.mem_cons, hxy, h2]⟩

/-- `dedupAux` never emits a duplicate. -/
theorem nodup_dedupAux {α : Type} [DecidableEq α] :
    ∀ (l seen : List α), (dedupAux seen l).Nodup
  | [], seen => by simp [dedupAux]
  | y :: ys, seen => by
    by_cases hy : y ∈ seen
    · rw [show dedupAux seen (y :: ys) = dedupAux seen ys from by simp [dedupAux, hy]]
      exact nodup_dedupAux ys seen
    · rw [show dedupAux seen (y :: ys) = y :: dedupAux (y :: seen) ys from by simp [dedupAux, hy]]
      rw [List.nodup_cons]
      refine ⟨fun hmem => ?_, nodup_dedupAux ys (y :: seen)⟩
      exact (mem_dedupAux y ys (y :: seen)).mp hmem |>.2 (List.mem_cons_self y seen)

/-- Membership is unchanged by first-occurrence deduplication. -/
theorem mem_dedupFirst {α : Type} [DecidableEq α] (x : α) (l : List α) :
    x ∈ dedupFirst l ↔ x ∈ l := by
  simp [dedupFirst, mem_dedupAux]

/-- First-occurrence deduplication yields a duplicate-free list. -/
theorem nodup_dedupFirst {α : Type} [DecidableEq α] (l : List α) : (dedupFirst l).Nodup :=
  nodup_dedupAux l []

/-- The code-point lexicographic comparison is total. -/
theorem lexLe_total : ∀ (a b : List Char), lexLe a b = true ∨ lexLe b a = true
  | [], _ => Or.inl rfl
  | _ :: _, [] => Or.inr rfl
  | a :: as, b :: bs => by
    by_cases hab : a = b
    · subst hab
      rcases lexLe_total as bs with h | h
      · left; simpa [lexLe] using h
      · right; simpa [lexLe] using h
    · rcases lt_trichotomy a b with h | h | h
      · left; simp [lexLe, hab, h]
      · exact absurd h hab
      · right; simp [lexLe, Ne.symm hab, h]

/-- The code-point lexicographic comparison is transitive. -/
theorem lexLe_trans : ∀ (a b c : List Char),
    lexLe a b = true → lexLe b c = true → lexLe a c = true
  | [], _, _, _, _ => rfl
  | _ :: _, [], _, h1, _ => by simp [lexLe] at h1
  | _ :: _, _ :: _, [], _, h2 => by simp [lexLe] at h2
  | x :: xs, y :: ys, z :: zs, h1, h2 => by
    by_cases hxy : x = y
    · subst hxy
      by_cases hyz : x = z
      · subst hyz
        simp only [lexLe, if_pos rfl] at h1 h2 ⊢
        exact lexLe_trans xs ys zs h1 h2
      · simp only [lexLe, if_neg hyz, decide_eq_true_eq] at h2 ⊢
        exact h2
    · simp only [lexLe, if_neg hxy, decide_eq_true_eq] at h1
      by_cases hyz : y = z
      · subst hyz
        simp [lexLe, hxy, h1]
      · simp only [lexLe, if_neg hyz, decide_eq_true_eq] at h2
        have hlt : x < z := lt_trans h1 h2
        simp [lexLe, ne_of_lt hlt, hlt]

instance isTotal_strLexLe : IsTotal String (fun a b => lexLe a.data b.data = true) :=
  ⟨fun a b => lexLe_total a.data b.data⟩

instance isTrans_strLexLe : IsTrans String (fun a b => lexLe a.data b.data = true) :=
  ⟨fun a b c => lexLe_trans a.data b.data c.data⟩

/-- `sortStrings` sorts for the code-point lexicographic order. -/
theorem sorted_sortStrings (l : List String) :
    (sortStrings l).Pairwise (fun a b => lexLe a.data b.data = true) :=
  List.sorted_insertionSort _ l

/-- `sortStrings` keeps membership. -/
theorem mem_sortStrings (x : String) (l : List String) : x ∈ sortStrings l ↔ x ∈ l :=
  (List.perm_insertionSort _ l).mem_iff

/-- `sortStrings` keeps freedom from duplicates. -/
theorem nodup_sortStrings (l : List String) (h : l.Nodup) : (sortStrings l).Nodup :=
  ((List.perm_insertionSort _ l).nodup_iff).mpr h

/-- The head of a non-empty filter is the first hit of `find?`. -/
theorem find?_of_filter_cons {α : Type} (p : α → Bool) :
    ∀ (l : List α) (r : α) (rest : List α), l.filter p = r :: rest → l.find? p = some r
  | [], _, _, h => by simp at h
  | x :: xs, r, rest, h => by
    by_cases hx : p x = true
    · rw [List.filter_cons_of_pos hx] at h
      obtain ⟨rfl, -⟩ : x = r ∧ _ := by
        injection h with h1 h2; exact ⟨h1, h2⟩
      exact List.find?_cons_of_pos xs hx
    · rw [List.filter_cons_of_neg hx] at h
      rw [List.find?_cons_of_neg xs hx]
      exact find?_of_filter_cons p xs r rest h

/-- An empty filter means `find?` misses. -/
theorem find?_of_filter_nil {α : Type} (p : α → Bool) (l : List α)
    (h : l.filter p = []) : l.find? p = none :=
  List.find?_eq_none.mpr (List.filter_eq_nil_iff.mp h)

/-- Digits never render as a comma. -/
theorem digitChar_ne_comma (k : Nat) : digitChar k ≠ ',' := by
  unfold digitChar; split <;> decide

/-- Every character written by the digit writer is a digit or came from
    the accumulator. -/
theorem natDigitsAux_ne_comma : ∀ (fuel n : Nat) (acc : List Char),
    (∀ c ∈ acc, c ≠ ',') → ∀ c ∈ natDigitsAux fuel n acc, c ≠ ','
  | 0, _, _, hacc => hacc
  | fuel + 1, n, acc, hacc => by
    simp only [natDigitsAux]
    split
    · intro c hc
      rcases List.mem_cons.mp hc with rfl | hc
      · exact digitChar_ne_comma n
      · exact hacc c hc
    · refine natDigitsAux_ne_comma fuel (n / 10) _ ?_
      intro c hc
      rcases List.mem_cons.mp hc with rfl | hc
      · exact digitChar_ne_comma _
      · exact hacc c hc

/-- The decimal rendering of a natural number contains no comma. -/
theorem natDigits_ne_comma (n : Nat) : ∀ c ∈ natDigits n, c ≠ ',' :=
  natDigitsAux_ne_comma (n + 1) n [] (by simp)

/-- The comma substitution fixes comma-free text. -/
theorem map_swapComma_id : ∀ l : List Char, (∀ c ∈ l, c ≠ ',') → l.map swapComma = l
  | [], _ => rfl
  | c :: cs, h => by
    rw [List.map_cons, map_swapComma_id cs fun d hd => h d (List.mem_cons_of_mem c hd)]
    simp [swapComma, h c (List.mem_cons_self c cs)]

/-- Substituting commas by dots in comma-grouped comma-free digits is
    dot grouping of the same digits. -/
theorem group3_map_swap : ∀ l : List Char,
    (∀ c ∈ l, c ≠ ',') → (group3 ',' l).map swapComma = group3 '.' l
  | [], _ => rfl
  | [a], h => by
    rw [show group3 ',' [a] = [a] from rfl, show group3 '.' [a] = [a] from rfl]
    exact map_swapComma_id [a] h
  | [a, b], h => by
    rw [show group3 ',' [a, b] = [a, b] from rfl, show group3 '.' [a, b] = [a, b] from rfl]
    exact map_swapComma_id [a, b] h
  | [a, b, c], h => by
    rw [show group3 ',' [a, b, c] = [a, b, c] from rfl,
      show group3 '.' [a, b, c] = [a, b, c] from rfl]
    exact map_swapComma_id [a, b, c] h
  | a :: b :: c :: d :: rest, h => by
    have hr : ∀ x ∈ d :: rest, x ≠ ',' := by
      intro x hx
      exact h x (List.mem_cons_of_mem a (List.mem_cons_of_mem b (List.mem_cons_of_mem c hx)))
    show (a :: b :: c :: ',' :: group3 ',' (d :: rest)).map swapComma =
      a :: b :: c :: '.' :: group3 '.' (d :: rest)
    simp only [List.map_cons]
    rw [group3_map_swap (d :: rest) hr]
    have ha := h a (List.mem_cons_self a _)
    have hb := h b (List.mem_cons_of_mem a (List.mem_cons_self b _))
    have hc := h c (List.mem_cons_of_mem a (List.mem_cons_of_mem b (List.mem_cons_self c _)))
    simp [swapComma, ha, hb, hc]

/-! ## Claim theorems -/

/-- C1: on the input `"avanza e"` over `dfTwoTypes`, the source's
    fallback extractor (single-pass, any-word, no brand back-fill)
    selects the type `"terios"` and leaves the brand unset, while the
    two-pass strategy the claim and spec prescribe selects
    `"avanza 1.3 e"` and back-fills the brand from that record: the
    shipped code does not implement the claimed two-pass derivation. -/
theorem C1_single_pass_vs_two_pass :
    fallback_extract "avanza e" dfTwoTypes = (none, some "terios", none, none) ∧
    fallbackTwoPass "avanza e" dfTwoTypes = (some "TOYOTA", some "avanza 1.3 e", none, none) :=
  ⟨by decide, by decide⟩

/-- C2 (amended): a record is in the exact-stage filter iff its brand
    equals the query brand case-insensitively, the query type —
    interpreted as a regular expression, as `str.contains` does —
    matches within the record's lowercased `type_match`, and its year
    rendered as text equals the trimmed query year; in particular the
    query type `"avanza"` matches the stored type `"Avanza 1.3 E"`. -/
theorem C2_exact_stage_membership :
    (∀ (df : List Record) (B T Y : String) (r : Record),
      r ∈ df_filtered df (lowerS (trimS B)) (lowerS (trimS T)) (trimS Y) ↔
        r ∈ df ∧ lowerS r.merk = lowerS (trimS B) ∧
          reSearch (lowerS (trimS T)) (lowerS r.tipe_match) = true ∧
          yearStr r = trimS Y) ∧
    reSearch "avanza" (lowerS "Avanza 1.3 E") = true := by
  constructor
  · intro df B T Y r
    simp [df_filtered, List.mem_filter, Bool.and_eq_true, decide_eq_true_eq, and_assoc]
  · decide

/-- C2 counterexample: with the stored type `"Avanza 1x3 E"` and the
    query type `"avanza 1.3 e"`, the record is selected by the
    exact-stage filter (the regex dot matches `x`) although the query
    type is not a literal substring of the stored type, so membership is
    not equivalent to literal substring containment as the claim
    states. -/
theorem C2_literal_substring_cex :
    ¬ (recDotX ∈ df_filtered dfDotX "toyota" "avanza 1.3 e" "2020" ↔
        recDotX ∈ dfDotX ∧ lowerS recDotX.merk = "toyota" ∧
          substrS "avanza 1.3 e" (lowerS recDotX.tipe_match) = true ∧
          yearStr recDotX = "2020") := by decide

/-- C4: whenever any of brand, type or year is falsy in the
    model-assisted result, the coordinator discards that result entirely
    — transmission included — and returns the rule-based extraction of
    all four fields; when all three are truthy the model result is kept
    unchanged, so no field-wise merging occurs. -/
theorem C4_dispatch_no_merge :
    ∀ (model : Option String × Option String × Option String × Option String)
      (input : String) (df : List Record),
      (¬ (truthy model.1 = true ∧ truthy model.2.1 = true ∧ truthy model.2.2.1 = true) →
        extract_dispatch model input df = fallback_extract input df) ∧
      (truthy model.1 = true ∧ truthy model.2.1 = true ∧ truthy model.2.2.1 = true →
        extract_dispatch model input df = model) := by
  intro model input df
  constructor
  · intro h
    have hc : (!truthy model.1 || !truthy model.2.1 || !truthy model.2.2.1) = true := by
      cases hb : truthy model.1 <;> cases ht : truthy model.2.1 <;>
        cases hy : truthy model.2.2.1 <;> simp_all
    simp [extract_dispatch, hc]
  · rintro ⟨hb, ht, hy⟩
    simp [extract_dispatch, hb, ht, hy]

/-- C4 witness: a model result missing the year is discarded whole in
    favour of the rule-based extraction. -/
theorem C4_witness :
    extract_dispatch (some "TOYOTA", some "Avanza", none, some "AT") "rush 2024 manual"
      dfScenario = fallback_extract "rush 2024 manual" dfScenario :=
  (C4_dispatch_no_merge (some "TOYOTA", some "Avanza", none, some "AT") "rush 2024 manual"
    dfScenario).1 (by decide)

/-- C8: for every service failure and every response that does not
    parse as the expected dict literal, the model-assisted extractor
    returns the uniform all-absent tuple; the embedding returns a plain
    tuple (not an `Except`), which is the no-exception-propagation
    guarantee of the `try/except` wrapper. -/
theorem C8_service_failure_uniform :
    ∀ svc : SvcResult,
      (svc = SvcResult.failure ∨ ∃ s, svc = SvcResult.response s ∧ parsePyDict s = none) →
      extract_params svc = (none, none, none, none) := by
  intro svc h
  rcases h with rfl | ⟨s, rfl, hs⟩
  · rfl
  · simp [extract_params, hs]

/-- C8 witness: an unparseable response yields the all-absent tuple. -/
theorem C8_witness :
    (SvcResult.response "service unavailable" = SvcResult.failure ∨
      ∃ s, SvcResult.response "service unavailable" = SvcResult.response s ∧
        parsePyDict s = none) ∧
    extract_params (SvcResult.response "service unavailable") = (none, none, none, none) :=
  ⟨Or.inr ⟨_, rfl, by decide⟩,
    C8_service_failure_uniform _ (Or.inr ⟨_, rfl, by decide⟩)⟩

/-- A positive `find?` exhibits the head of the filter. -/
theorem filter_cons_of_find? {α : Type} (p : α → Bool) :
    ∀ (l : List α) (r : α), l.find? p = some r → ∃ rest, l.filter p = r :: rest
  | [], _, h => by simp at h
  | x :: xs, r, h => by
    by_cases hx : p x = true
    · rw [List.find?_cons_of_pos xs hx] at h
      injection h with h1; subst h1
      exact ⟨xs.filter p, List.filter_cons_of_pos hx⟩
    · rw [List.find?_cons_of_neg xs hx] at h
      obtain ⟨rest, hr⟩ := filter_cons_of_find? p xs r h
      exact ⟨rest, by rw [List.filter_cons_of_neg hx, hr]⟩

/-- Case analysis of the brand-correction pass: with a truthy type, the
    result is decided by the first record whose lowercased `type_match`
    matches the lowercased type as a regular expression, or is the
    unchanged brand when no record matches. -/
theorem brand_correct_cases :
    ∀ (df : List Record) (brand tipe : Option String),
      truthy tipe = true →
      ((∀ r : Record,
          df.find? (fun r => reSearch (lowerS (tipe.getD "")) (lowerS r.tipe_match)) = some r →
          brand_correct df brand tipe =
            (if truthy brand = true ∧ lowerS (brand.getD "") = lowerS r.merk then brand
             else some (lowerS r.merk))) ∧
       (df.find? (fun r => reSearch (lowerS (tipe.getD "")) (lowerS r.tipe_match)) = none →
          brand_correct df brand tipe = brand)) := by
  intro df brand tipe ht
  constructor
  · intro r hr
    obtain ⟨rest, hfil⟩ := filter_cons_of_find? _ df r hr
    unfold brand_correct
    simp only [ht, if_true, hfil]
    cases htb : truthy brand with
    | false => simp [htb]
    | true =>
      by_cases h2 : lowerS (brand.getD "") = lowerS r.merk
      · simp [htb, h2]
      · simp [htb, h2]
  · intro hnone
    unfold brand_correct
    simp only [ht, if_true]
    have hfil : df.filter
        (fun r => reSearch (lowerS (tipe.getD "")) (lowerS r.tipe_match)) = [] := by
      rw [List.filter_eq_nil_iff]
      exact List.find?_eq_none.mp hnone
    simp [hfil]

/-- C5 (amended): with a truthy type, let the lookup be the first
    dataset record whose lowercased `type_match` matches the lowercased
    type interpreted as a regular expression, as `str.contains`
    (`na=False`) does.  If such a record exists, the brand stays
    unchanged when it is truthy and agrees case-insensitively with that
    record's brand, and otherwise becomes that record's brand
    lowercased; if no record matches, the brand is left unchanged. -/
theorem C5_brand_correction :
    ∀ (df : List Record) (brand tipe : Option String),
      truthy tipe = true →
      ((∀ r : Record,
          df.find? (fun r => reSearch (lowerS (tipe.getD "")) (lowerS r.tipe_match)) = some r →
          brand_correct df brand tipe =
            (if truthy brand = true ∧ lowerS (brand.getD "") = lowerS r.merk then brand
             else some (lowerS r.merk))) ∧
       (df.find? (fun r => reSearch (lowerS (tipe.getD "")) (lowerS r.tipe_match)) = none →
          brand_correct df brand tipe = brand)) :=
  fun df brand tipe ht => brand_correct_cases df brand tipe ht

/-- C5 counterexample: for the type `"1.3"` over `dfBrandMix` with no
    brand set, the first record containing `"1.3"` as a literal
    substring is the Toyota one, so the claim requires the brand to be
    overwritten with Toyota's brand; the code instead takes the brand of
    the earlier Honda record, whose `"Brio 1x3 X"` matches `"1.3"` only
    as a regular expression. -/
theorem C5_substring_first_record_cex :
    dfBrandMix.find?
        (fun r => substrS (lowerS ((some "1.3").getD "")) (lowerS r.tipe_match)) =
      some recAvanza ∧
    truthy (none : Option String) = false ∧
    brand_correct dfBrandMix none (some "1.3") = some "honda" ∧
    brand_correct dfBrandMix none (some "1.3") ≠ some (lowerS recAvanza.merk) :=
  ⟨by decide, rfl, by decide, by decide⟩

/-- C5 witness: a brand disagreeing with the matched record's brand is
    overwritten with that record's brand lowercased. -/
theorem C5_witness :
    truthy (some "avanza") = true ∧
    brand_correct dfScenario (some "HONDA") (some "avanza") =
      (if truthy (some "HONDA") = true ∧
          lowerS ((some "HONDA").getD "") = lowerS recAvanza.merk then some "HONDA"
       else some (lowerS recAvanza.merk)) :=
  ⟨by decide,
    (C5_brand_correction dfScenario (some "HONDA") (some "avanza") (by decide)).1 recAvanza
      (by decide)⟩

/-- C9: when the extracted type is truthy and occurs as a
    case-insensitive literal substring of some record's `type_match`,
    the brand-correction pass leaves a truthy brand (it fills a missing
    brand, not only replaces a differing one), provided the dataset's
    brand values are non-empty as the data model requires; hence the
    completeness check of line 150 can then fail only for a falsy
    year. -/
theorem C9_brand_backfilled :
    ∀ (df : List Record) (brand tipe tahun : Option String),
      truthy tipe = true →
      (∃ r ∈ df, substrS (lowerS (tipe.getD "")) (lowerS r.tipe_match) = true) →
      (∀ r ∈ df, lowerS r.merk ≠ "") →
      truthy (brand_correct df brand tipe) = true ∧
      ((!truthy (brand_correct df brand tipe) || !truthy tipe || !truthy tahun) = true →
        truthy tahun = false) := by
  intro df brand tipe tahun ht hex hm
  have hmain : truthy (brand_correct df brand tipe) = true := by
    obtain ⟨r0, hr0, hsub0⟩ := hex
    cases hfind : df.find? (fun r => reSearch (lowerS (tipe.getD "")) (lowerS r.tipe_match)) with
    | none =>
      exact absurd (reSearch_of_substrS _ _ hsub0) (List.find?_eq_none.mp hfind r0 hr0)
    | some r =>
      have hrmem : r ∈ df := List.mem_of_find?_eq_some hfind
      have heq := (brand_correct_cases df brand tipe ht).1 r hfind
      by_cases hcase : truthy brand = true ∧ lowerS (brand.getD "") = lowerS r.merk
      · rw [heq, if_pos hcase]; exact hcase.1
      · rw [heq, if_neg hcase]
        have hne : (lowerS r.merk).data ≠ [] := by
          intro hnil
          exact hm r hrmem ((show lowerS r.merk = String.mk (lowerS r.merk).data from rfl).trans
            (by rw [hnil]))
        cases hd : (lowerS r.merk).data with
        | nil => exact absurd hd hne
        | cons c cs => simp [truthy, hd]
  refine ⟨hmain, fun h => ?_⟩
  cases hy : truthy tahun with
  | false => rfl
  | true => rw [hmain, ht, hy] at h; simp at h

/-- C9 witness: over the scenario dataset, the type `"avanza"` with no
    brand extracted ends with a truthy brand after correction. -/
theorem C9_witness :
    truthy (some "avanza") = true ∧
    truthy (brand_correct dfScenario none (some "avanza")) = true :=
  ⟨by decide,
    (C9_brand_backfilled dfScenario none (some "avanza") none (by decide)
      ⟨recAvanza, by decide, by decide⟩ (by decide)).1⟩

/-- C3 (amended): every query that passes the completeness check
    (brand, type and year all truthy) appends exactly one log record —
    including zero-result PartialMatch and NotFound queries — whose
    fields are the timestamp, the raw input, the normalized brand, type
    and year, the transmission, and a result count; a query left
    incomplete attempts no search and appends no log record. -/
theorem C3_one_log_per_search :
    ∀ (ts input : String) (brand tipe tahun transmisi : Option String) (df : List Record),
      (truthy brand = true → truthy tipe = true → truthy tahun = true →
        ∃ n, (run_search ts input brand tipe tahun transmisi df).2 =
          [⟨ts, input, lowerS (trimS (brand.getD "")), lowerS (trimS (tipe.getD "")),
            trimS (tahun.getD ""), transmisi, n⟩]) ∧
      (¬ (truthy brand = true ∧ truthy tipe = true ∧ truthy tahun = true) →
        run_search ts input brand tipe tahun transmisi df = (Outcome.incomplete, [])) := by
  intro ts input brand tipe tahun transmisi df
  constructor
  · intro hb ht hy
    have hcond : (!truthy brand || !truthy tipe || !truthy tahun) = false := by
      simp [hb, ht, hy]
    cases hF : (df_filtered df (lowerS (trimS (brand.getD ""))) (lowerS (trimS (tipe.getD "")))
        (trimS (tahun.getD ""))).isEmpty with
    | true =>
      cases hA : (df_alt df (lowerS (trimS (brand.getD "")))
          (lowerS (trimS (tipe.getD "")))).isEmpty with
      | true => exact ⟨0, by simp [run_search, hcond, hF, hA]⟩
      | false => exact ⟨0, by simp [run_search, hcond, hF, hA]⟩
    | false => exact ⟨_, by simp [run_search, hcond, hF]; rfl⟩
  · intro h
    have hcond : (!truthy brand || !truthy tipe || !truthy tahun) = true := by
      cases hb : truthy brand <;> cases ht : truthy tipe <;> cases hy : truthy tahun <;> simp_all
    simp [run_search, hcond]

/-- C3 counterexample: a query whose year stays unresolved (the spec's
    scenario 4 input over the scenario dataset) is reported incomplete
    and appends no log record, where the claim requires an appended
    record with result count 0. -/
theorem C3_incomplete_writes_no_log_cex :
    run_search "ts" "toyota avanza" (some "toyota") (some "avanza") none none dfScenario =
      (Outcome.incomplete, []) := by decide

/-- C3 witness: a zero-result PartialMatch query appends exactly one
    log record. -/
theorem C3_witness :
    ∃ n, (run_search "ts" "avanza 2021" (some "toyota") (some "avanza") (some "2021") none
        dfScenario).2 =
      [⟨"ts", "avanza 2021", lowerS (trimS ((some "toyota").getD "")),
        lowerS (trimS ((some "avanza").getD "")), trimS ((some "2021").getD ""), none, n⟩] :=
  (C3_one_log_per_search "ts" "avanza 2021" (some "toyota") (some "avanza") (some "2021") none
    dfScenario).1 (by decide) (by decide) (by decide)

/-- C6: for a fully-specified query whose exact-stage filter is empty,
    a non-empty relaxed filter (year constraint dropped) yields the
    PartialMatch outcome carrying exactly the distinct years of the
    relaxed matches, rendered as strings, duplicate-free and sorted
    ascending in the lexicographic string order; an empty relaxed filter
    yields NotFound.  Neither outcome variant carries a result table. -/
theorem C6_year_relaxation :
    ∀ (ts input : String) (brand tipe tahun transmisi : Option String) (df : List Record)
      (b t y : String),
      truthy brand = true → truthy tipe = true → truthy tahun = true →
      lowerS (trimS (brand.getD "")) = b → lowerS (trimS (tipe.getD "")) = t →
      trimS (tahun.getD "") = y →
      df_filtered df b t y = [] →
      ((df_alt df b t ≠ [] →
        ∃ ys, (run_search ts input brand tipe tahun transmisi df).1 = Outcome.yearsAvail ys ∧
          ys.Pairwise (fun a b => lexLe a.data b.data = true) ∧ ys.Nodup ∧
          (∀ s, s ∈ ys ↔ ∃ r ∈ df_alt df b t, yearStr r = s)) ∧
       (df_alt df b t = [] →
        (run_search ts input brand tipe tahun transmisi df).1 = Outcome.notFound)) := by
  intro ts input brand tipe tahun transmisi df b t y hb ht hy hbe hte hye hF
  have hcond : (!truthy brand || !truthy tipe || !truthy tahun) = false := by
    simp [hb, ht, hy]
  constructor
  · intro hA
    have hAe : (df_alt df b t).isEmpty = false := by
      cases hAA : df_alt df b t with
      | nil => exact absurd hAA hA
      | cons r rest => rfl
    refine ⟨sortStrings (dedupFirst ((df_alt df b t).map yearStr)), ?_, sorted_sortStrings _,
      nodup_sortStrings _ (nodup_dedupFirst _), fun s => ?_⟩
    · simp [run_search, hcond, hbe, hte, hye, hF, hAe]
    · rw [mem_sortStrings, mem_dedupFirst, List.mem_map]
  · intro hA
    simp [run_search, hcond, hbe, hte, hye, hF, hA]

/-- C6 witness: the spec's scenario 2 — the scenario dataset, query
    avanza 2021 — exercises the PartialMatch branch of the theorem. -/
theorem C6_witness :
    df_filtered dfScenario "toyota" "avanza" "2021" = [] ∧
    ((df_alt dfScenario "toyota" "avanza" ≠ [] →
      ∃ ys, (run_search "ts" "avanza 2021" (some "toyota") (some "avanza") (some "2021") none
          dfScenario).1 = Outcome.yearsAvail ys ∧
        ys.Pairwise (fun a b => lexLe a.data b.data = true) ∧ ys.Nodup ∧
        (∀ s, s ∈ ys ↔ ∃ r ∈ df_alt dfScenario "toyota" "avanza", yearStr r = s)) ∧
     (df_alt dfScenario "toyota" "avanza" = [] →
      (run_search "ts" "avanza 2021" (some "toyota") (some "avanza") (some "2021") none
          dfScenario).1 = Outcome.notFound)) :=
  ⟨by decide,
    C6_year_relaxation "ts" "avanza 2021" (some "toyota") (some "avanza") (some "2021") none
      dfScenario "toyota" "avanza" "2021" (by decide) (by decide) (by decide) (by decide)
      (by decide) (by decide) (by decide)⟩

/-- C7: the Rupiah formatter renders null and zero as the literal dash,
    and every positive amount as `Rp `, then the half-even rounding of
    the amount divided by 1,000,000 grouped in thousands with `.` as
    the separator, then ` juta`. -/
theorem C7_format_rupiah :
    format_rupiah none = "-" ∧ format_rupiah (some 0) = "-" ∧
    ∀ v : Int, 0 < v →
      format_rupiah (some v) = "Rp " ++ dotGrouped (roundHalfEvenFrac v 1000000) ++ " juta" := by
  refine ⟨rfl, rfl, fun v hv => ?_⟩
  have hne : ¬ v = 0 := by omega
  simp only [format_rupiah, if_neg hne]
  have hdg : ∀ c ∈ (natDigits (roundHalfEvenFrac v 1000000).natAbs).reverse, c ≠ ',' :=
    fun c hc => natDigits_ne_comma _ c (List.mem_reverse.mp hc)
  have hsign : ((if roundHalfEvenFrac v 1000000 < 0 then ['-'] else []) : List Char).map
      swapComma = (if roundHalfEvenFrac v 1000000 < 0 then ['-'] else []) := by
    split <;> decide
  have hstr : ∀ (l : List Char) (s : String), l = s.data → String.mk l = s := by
    intro l s h; rw [h]
  apply hstr
  show (("Rp ".data ++ commaGrouped (roundHalfEvenFrac v 1000000) ++ " juta".data).map
      swapComma) =
    ("Rp ".data ++ (dotGrouped (roundHalfEvenFrac v 1000000)).data ++ " juta".data)
  simp only [List.map_append, commaGrouped, dotGrouped, hsign,
    show ("Rp ".data).map swapComma = "Rp ".data from by decide,
    show (" juta".data).map swapComma = " juta".data from by decide]
  rw [List.map_reverse, group3_map_swap _ hdg]

/-- C7 witness: the scenario average amount formats as the claim
    prescribes. -/
theorem C7_witness :
    (0 : Int) < 220000000 ∧
    format_rupiah (some 220000000) =
      "Rp " ++ dotGrouped (roundHalfEvenFrac 220000000 1000000) ++ " juta" :=
  ⟨by decide, C7_format_rupiah.2.2 220000000 (by decide)⟩

/-- C10: the exact-stage and relaxed filters, which pass the extracted
    type to the regex containment test with no `na` default, fail on any
    dataset whose `tipe_match` column holds a null and succeed on any
    null-free dataset; the type is used unescaped as a regular
    expression (the dot in `"1.3"` matches `"1x3"`, which literal
    substring containment rejects, while `"1.3"` lies in the
    well-formed modelled pattern fragment); the brand-correction lookup
    instead supplies a false default for null entries and is total,
    never selecting a null row. -/
theorem C10_null_handling :
    (∀ (df : List Row) (b t y : String), (∃ r ∈ df, r.tipe_match = none) →
      df_filteredE df b t y = Except.error () ∧ df_altE df b t = Except.error ()) ∧
    (∀ (df : List Row) (b t y : String), (∀ r ∈ df, r.tipe_match ≠ none) →
      (∃ l, df_filteredE df b t y = Except.ok l) ∧ ∃ l, df_altE df b t = Except.ok l) ∧
    (reSearch "1.3" "1x3" = true ∧ substrS "1.3" "1x3" = false ∧ patOk "1.3" = true) ∧
    (∀ (df : List Row) (t : String) (r : Row), r ∈ df_tipeLookup df t → r.tipe_match ≠ none) := by
  refine ⟨?_, ?_, by decide, ?_⟩
  · rintro df b t y ⟨r, hr, hn⟩
    have hany : (df.any fun r => r.tipe_match.isNone) = true := by
      rw [List.any_eq_true]; exact ⟨r, hr, by simp [hn]⟩
    exact ⟨by simp [df_filteredE, hany], by simp [df_altE, hany]⟩
  · intro df b t y hall
    have hany : (df.any fun r => r.tipe_match.isNone) = false := by
      cases h : df.any fun r => r.tipe_match.isNone with
      | false => rfl
      | true =>
        obtain ⟨r, hr, hnone⟩ := List.any_eq_true.mp h
        exact absurd (Option.isNone_iff_eq_none.mp hnone) (hall r hr)
    exact ⟨⟨_, by simp [df_filteredE, hany]; rfl⟩, ⟨_, by simp [df_altE, hany]; rfl⟩⟩
  · intro df t r hr
    unfold df_tipeLookup at hr
    obtain ⟨-, hp⟩ := List.mem_filter.mp hr
    cases hm : r.tipe_match with
    | none => rw [hm] at hp; simp at hp
    | some tm => simp [hm]

/-- C10 witness: a null `tipe_match` makes both search filters raise
    while a null-free dataset filters cleanly. -/
theorem C10_witness :
    (∃ r ∈ dfRowNull, r.tipe_match = none) ∧
    (df_filteredE dfRowNull "toyota" "avanza" "2020" = Except.error () ∧
      df_altE dfRowNull "toyota" "avanza" = Except.error ()) ∧
    (∀ r ∈ dfRowOk, r.tipe_match ≠ none) ∧
    ((∃ l, df_filteredE dfRowOk "toyota" "avanza" "2020" = Except.ok l) ∧
      ∃ l, df_altE dfRowOk "toyota" "avanza" = Except.ok l) :=
  ⟨by decide, C10_null_handling.1 dfRowNull "toyota" "avanza" "2020" (by decide),
    by decide, C10_null_handling.2.1 dfRowOk "toyota" "avanza" "2020" (by decide)⟩
